import Mathlib

/-!
Verification of the adaptive execution and orchestration engine of the
ai-code-agent repository against its natural-language specification.

The development shallowly embeds the relevant TypeScript source:

* the finite-state workflow interpreter of
  src/executors/workflow_engine.ts (class WorkflowEngine:
  executeGenerator, executeStep and run);
* the step executor executeGeneratedStep of
  src/generators/bot_generator.ts, together with its selector and
  fallback handling;
* the iterative micro-plan loop generateWorkflowPhase of
  src/generators/bot_generator.ts and the surrounding generateBot
  driver, with the external collaborators (Page Inspector, DeepSeek
  planner, sandbox, human gates) abstracted as oracle environments;
* the plan parsing fallback of DeepSeekClient.createMicroPlan
  (src/core/deepseek_client.ts);
* the two interactive approval prompts promptPlanAction and
  confirmMicroPlan of src/generators/bot_generator.ts.

Purely effectful concerns (console logging, file persistence, real
timers) are reflected as explicit fields of the result records where a
claim refers to them, and are otherwise dropped.
-/

namespace AiCodeAgent

/-! ## Workflow engine (src/executors/workflow_engine.ts) -/

/-- Association-list lookup, modelling access to a TypeScript
Record<string, T> object built from the YAML workflow configuration. -/
def lookupA {α : Type} (m : List (String × α)) (k : String) : Option α :=
  (m.find? (fun p => p.1 == k)).map (fun p => p.2)

/-- One entry of steps_config: interface WorkflowStep (the step number
field is irrelevant to control flow and omitted). -/
structure WStepCfg where
  func : String
  transitions : List (String × String)
  timeout : Nat
  on_timeout_event : String
  deriving Repr, DecidableEq

/-- Workflow configuration: workflow_meta.start_step plus steps_config. -/
structure WConfig where
  start_step : String
  steps_config : List (String × WStepCfg)
  deriving Repr, DecidableEq

/-- Behaviour of one invocation of a registered step function, as the
engine observes it: either the timeout promise wins the race (timedOut)
or the generator runs, in which case yields lists the values the
underlying async generator would successively yield (the empty string
standing for a falsy value such as undefined). -/
structure StepEnv where
  timedOut : Bool
  yields : List String

/-- Model of WorkflowEngine.executeGenerator: the engine awaits
generator.next() exactly once, so only the head of the yield list is
consulted; result.value || 'unknown' turns a missing or falsy first
value into the event string unknown. -/
def executeGenerator (yields : List String) : String :=
  match yields with
  | [] => "unknown"
  | v :: _ => if v = "" then "unknown" else v

/-- Model of WorkflowEngine.executeStep: look up the step configuration
(throwing when absent), look up the registered function by its func key
(throwing when absent), then race the generator against the timeout
promise; a timeout resolves to the configured on_timeout_event. -/
def executeStep (cfg : WConfig) (registered : List String) (env : StepEnv)
    (name : String) : Except String String :=
  match lookupA cfg.steps_config name with
  | none => .error ("Step not found in configuration: " ++ name)
  | some sc =>
    if registered.contains sc.func then
      .ok (if env.timedOut then sc.on_timeout_event else executeGenerator env.yields)
    else
      .error ("Function not registered: " ++ sc.func)

/-- How a run of WorkflowEngine.run ends. -/
inductive RunExit where
  /-- The loop condition saw currentStepName equal to the done state. -/
  | reachedDone : RunExit
  /-- A step produced an event with no entry in its transitions map; the
  loop breaks after warning. -/
  | unknownTransition (step event : String) : RunExit
  /-- The stepCount reached maxSteps and the while condition stopped the
  loop. -/
  | budgetStop : RunExit
  /-- executeStep threw (missing step or unregistered function); the
  exception propagates out of run. -/
  | configError (msg : String) : RunExit
  deriving Repr, DecidableEq

/-- Loop body of WorkflowEngine.run. The trace accumulator records, most
recent first, the names of the steps whose executeStep call completed;
fuel is maxSteps minus the number of iterations already performed, and
count indexes the environment so that successive invocations of step
functions may behave differently. -/
def runAux (cfg : WConfig) (registered : List String) (env : Nat → StepEnv) :
    String → Nat → List String → Nat → List String × RunExit
  | current, _, traceRev, 0 =>
    if current = "done" then (traceRev, .reachedDone) else (traceRev, .budgetStop)
  | current, count, traceRev, fuel + 1 =>
    if current = "done" then (traceRev, .reachedDone)
    else
      match executeStep cfg registered (env count) current with
      | .error msg => (traceRev, .configError msg)
      | .ok ev =>
        match lookupA cfg.steps_config current with
        | none => (traceRev, .configError ("Step not found in configuration: " ++ current))
        | some sc =>
          match lookupA sc.transitions ev with
          | some next => runAux cfg registered env next (count + 1) (current :: traceRev) fuel
          | none => (current :: traceRev, .unknownTransition current ev)

/-- Observable outcome of WorkflowEngine.run: the ordered list of
executed step names, the exit kind, whether the maximum-step-count
warning was printed, and whether the final workflow-completed message
was printed (run resolving normally). -/
structure RunResult where
  trace : List String
  exit : RunExit
  budgetWarned : Bool
  completedLogged : Bool
  deriving Repr, DecidableEq

/-- Model of WorkflowEngine.run: iterate from the configured start step
with maxSteps = 1200. A thrown configuration error skips the epilogue;
in every other case the epilogue prints the maximum-step warning exactly
when stepCount reached maxSteps and always prints the
workflow-completed message before resolving normally. -/
def run (cfg : WConfig) (registered : List String) (env : Nat → StepEnv) : RunResult :=
  match runAux cfg registered env cfg.start_step 0 [] 1200 with
  | (tr, .reachedDone) => ⟨tr.reverse, .reachedDone, decide (1200 ≤ tr.length), true⟩
  | (tr, .unknownTransition s e) =>
    ⟨tr.reverse, .unknownTransition s e, decide (1200 ≤ tr.length), true⟩
  | (tr, .budgetStop) => ⟨tr.reverse, .budgetStop, decide (1200 ≤ tr.length), true⟩
  | (tr, .configError m) => ⟨tr.reverse, .configError m, false, false⟩

/-! ## Step executor (BotGenerator.executeGeneratedStep,
src/generators/bot_generator.ts) -/

/-- Substring test, modelling JavaScript String.prototype.includes as
used on function names in executeGeneratedStep. -/
def containsSub (s pat : String) : Bool :=
  s.toList.tails.any (fun t => pat.toList.isPrefixOf t)

/-- The four concrete browser actions the step executor can perform. -/
inductive ActionKind where
  | click : ActionKind
  | fill : ActionKind
  | pressEnter : ActionKind
  | select : ActionKind
  deriving Repr, DecidableEq

/-- The action-kind decision chain of executeGeneratedStep, in source
order: click when the function name mentions click or button or the tag
is button or a; else fill when the name mentions fill, type or input or
the tag is input or textarea; else press-Enter when the name mentions
both press and enter; else select when the name mentions select or the
tag is select; else no action can be determined. -/
def determineAction (fn tag : String) : Option ActionKind :=
  if containsSub fn "click" || containsSub fn "button" || tag == "button" || tag == "a" then
    some .click
  else if containsSub fn "fill" || containsSub fn "type" || containsSub fn "input"
      || tag == "input" || tag == "textarea" then
    some .fill
  else if containsSub fn "press" && containsSub fn "enter" then
    some .pressEnter
  else if containsSub fn "select" || tag == "select" then
    some .select
  else
    none

/-- Abstraction of the live page as the executor observes it: whether
page.waitForSelector finds a visible element for a selector within a
given millisecond deadline, the tag name of the element a selector
resolves to, and whether acting on that element raises. -/
structure PageEnv where
  found : String → Nat → Bool
  tagOf : String → String
  actionFails : String → Bool

/-- The result object executeGeneratedStep returns (page_state, always
captured, carries no information relevant to the claims and is
omitted). -/
structure ExecResult where
  success : Bool
  error : Option String
  event : Option String
  deriving Repr, DecidableEq

/-- Audit trail of one executeGeneratedStep call: the waitForSelector
attempts in order, each with the deadline used; the concrete actions
that completed, with the selector acted on; and whether the plan step's
test_criteria was ever evaluated against the page. -/
structure ExecTrace where
  attempts : List (String × Nat)
  actions : List (ActionKind × String)
  criteriaChecked : Bool
  deriving Repr, DecidableEq

/-- The fallback loop in the catch handler of executeGeneratedStep: at
most the first two extracted fallback selectors are tried, each with a
5000 ms deadline, and each found element is clicked; a fallback whose
wait or click raises is skipped; when the slice is exhausted the
original error is rethrown, surfacing as a failed result. -/
def tryFallbacks (page : PageEnv) (origErr : String) :
    List String → List (String × Nat) → ExecResult × ExecTrace
  | [], acc => (⟨false, some origErr, none⟩, ⟨acc, [], false⟩)
  | fb :: rest, acc =>
    let acc' := acc ++ [(fb, 5000)]
    if page.found fb 5000 && !page.actionFails fb then
      (⟨true, none, some "success_event"⟩, ⟨acc', [(.click, fb)], false⟩)
    else
      tryFallbacks page origErr rest acc'

/-- Model of BotGenerator.executeGeneratedStep. Inputs: the primary
selector extracted from the generated code (none when
extractPrimarySelector found nothing), the fallback selector list
extracted by extractFallbackSelectors, the generated function name, and
the page abstraction. The primary selector is awaited with the full
10000 ms deadline; a miss, or an action that raises, falls into the
catch handler which tries at most two fallbacks at 5000 ms each. -/
def executeGeneratedStep (primarySel : Option String) (fallbacks : List String)
    (fn : String) (page : PageEnv) : ExecResult × ExecTrace :=
  match primarySel with
  | none =>
    (⟨false, some "No selector found in generated code", some "element_not_found"⟩,
      ⟨[], [], false⟩)
  | some sel =>
    if page.found sel 10000 then
      match determineAction fn (page.tagOf sel) with
      | none =>
        (⟨false, some "Element found but no action could be determined", some "no_action"⟩,
          ⟨[(sel, 10000)], [], false⟩)
      | some act =>
        if page.actionFails sel then
          tryFallbacks page "action raised during execution" (fallbacks.take 2) [(sel, 10000)]
        else
          (⟨true, none, some "success_event"⟩, ⟨[(sel, 10000)], [(act, sel)], false⟩)
    else
      tryFallbacks page "selector timeout" (fallbacks.take 2) [(sel, 10000)]

/-! ## Micro-plan creation (DeepSeekClient.createMicroPlan,
src/core/deepseek_client.ts) -/

/-- One step of a micro-plan as returned by the planner JSON. -/
structure MicroPlanStep where
  step_number : Nat
  action : String
  selector : Option String
  test_criteria : String
  deriving Repr, DecidableEq

/-- A micro-plan: the parsed steps array plus estimated_time. -/
structure MicroPlan where
  steps : List MicroPlanStep
  estimated_time : String
  deriving Repr, DecidableEq

/-- The hard-coded plan createMicroPlan returns when no JSON object can
be parsed out of the model response: a single analyze-current-page
step. -/
def fallbackMicroPlan : MicroPlan :=
  ⟨[⟨1, "Analyze current page", none, "Page analysis complete"⟩], "Unknown"⟩

/-- Model of DeepSeekClient.createMicroPlan after the chat call: the
input is the successfully parsed JSON payload when one exists; a parse
failure yields the fallback plan. No validation of the number of steps
is performed in either case. -/
def createMicroPlan (parsed : Option MicroPlan) : MicroPlan :=
  parsed.getD fallbackMicroPlan

/-! ## Plan loop controller (BotGenerator.generateWorkflowPhase and
generateBot, src/generators/bot_generator.ts) -/

/-- One committed entry of context.generated_steps: the action
description together with the execution result stored with it (the
yaml and typescript payloads carry no control-flow information). -/
structure GStep where
  action_description : String
  execution_result : ExecResult
  deriving Repr, DecidableEq

/-- The per-micro-plan execution loop: steps are generated and executed
in order; a step whose execution result has success true is appended to
the committed history; the first failure abandons the remainder of the
plan, leaving earlier commits in place. The result list gives, for each
successive plan step, the ExecutionResult its executeGeneratedStep call
would produce. -/
def commitPlan (ctx : List GStep) :
    List MicroPlanStep → List ExecResult → List GStep
  | [], _ => ctx
  | _, [] => ctx
  | p :: ps, r :: rs =>
    if r.success then commitPlan (ctx ++ [⟨p.action, r⟩]) ps rs else ctx

/-- Oracle environment for one iteration of the micro-plan loop: the
goal-fulfillment verdict of DeepSeekClient.isIntentFulfilled, the
interactive element count of the HTML analyzer, the can_proceed verdict
of the raw-HTML AI fallback, the parsed payload handed to
createMicroPlan, the verdict of the confirmMicroPlan human gate, and
the execution results of the steps of the approved plan. -/
structure IterEnv where
  fulfilled : Bool
  totalElements : Nat
  aiCanProceed : Bool
  planParse : Option MicroPlan
  approved : Bool
  stepResults : List ExecResult

/-- Why the micro-plan loop of generateWorkflowPhase stopped. -/
inductive PhaseExit where
  /-- microPlanCount reached maxMicroPlans and the while condition
  ended the loop. -/
  | budgetExhausted : PhaseExit
  /-- isIntentFulfilled returned true and the loop broke. -/
  | goalAchieved : PhaseExit
  /-- Few elements were found and the AI fallback said it cannot
  proceed. -/
  | aiCannotProceed : PhaseExit
  /-- The human gate rejected the micro-plan. -/
  | planRejected : PhaseExit
  deriving Repr, DecidableEq

/-- Outcome of generateWorkflowPhase: the committed history
(context.generated_steps) on return, the number of createMicroPlan
calls issued, and the exit kind. -/
structure PhaseResult where
  committed : List GStep
  plannerCalls : Nat
  exit : PhaseExit
  deriving Repr, DecidableEq

/-- Model of the while loop of generateWorkflowPhase. The fuel argument
is maxMicroPlans minus the number of iterations already performed
(maxMicroPlans = 20 at the top-level call); idx numbers the iterations
so the oracle environment can answer differently over time. Iteration
order follows the source: goal check first, then the element-count
guard with its AI fallback, then createMicroPlan, then the human gate,
then sequential execution with commit-on-success. -/
def phaseLoop (env : Nat → IterEnv) :
    Nat → Nat → List GStep → Nat → PhaseResult
  | 0, _, ctx, calls => ⟨ctx, calls, .budgetExhausted⟩
  | fuel + 1, idx, ctx, calls =>
    if (env idx).fulfilled then ⟨ctx, calls, .goalAchieved⟩
    else if (env idx).totalElements < 5 && !(env idx).aiCanProceed then
      ⟨ctx, calls, .aiCannotProceed⟩
    else if !(env idx).approved then ⟨ctx, calls + 1, .planRejected⟩
    else
      phaseLoop env fuel (idx + 1)
        (commitPlan ctx (createMicroPlan (env idx).planParse).steps (env idx).stepResults)
        (calls + 1)

/-- The single step generateDiscoveryPhase commits: the navigation step,
recorded with a hard-coded successful execution result. -/
def discoveryStep : GStep :=
  ⟨"Navigate to URL", ⟨true, none, none⟩⟩

/-- Final observable state of one generateBot run (fresh bot, no
exception): committed history, planner-call count, phase exit and the
bot status written by updateBotStatus. -/
structure BotOutcome where
  history : List GStep
  plannerCalls : Nat
  phaseExit : PhaseExit
  status : String
  deriving Repr, DecidableEq

/-- Model of BotGenerator.generateBot for a fresh bot: the discovery
phase pushes its navigation step into context.generated_steps, the
workflow phase runs with maxMicroPlans = 20 extending the same context,
and then generateBot pushes the list returned by generateWorkflowPhase
into the context a second time, compiles the bot and unconditionally
marks its status completed. No branch inspects how the workflow phase
ended. -/
def generateBot (env : Nat → IterEnv) : BotOutcome :=
  ⟨(phaseLoop env 20 0 [discoveryStep] 0).committed
      ++ (phaseLoop env 20 0 [discoveryStep] 0).committed.drop 1,
    (phaseLoop env 20 0 [discoveryStep] 0).plannerCalls,
    (phaseLoop env 20 0 [discoveryStep] 0).exit, "completed"⟩

/-! ## Human approval gates (BotGenerator.promptPlanAction and
BotGenerator.confirmMicroPlan, src/generators/bot_generator.ts) -/

/-- JavaScript String.prototype.trim: strip leading and trailing
whitespace. -/
def jsTrim (s : String) : String :=
  String.mk (((s.toList.dropWhile Char.isWhitespace).reverse.dropWhile
    Char.isWhitespace).reverse)

/-- JavaScript String.prototype.toLowerCase (ASCII fragment, which is
all the prompt comparisons rely on). -/
def jsToLower (s : String) : String :=
  String.mk (s.toList.map Char.toLower)

/-- JavaScript String.prototype.startsWith. -/
def jsStartsWith (s pat : String) : Bool :=
  pat.toList.isPrefixOf s.toList

/-- Model of promptPlanAction: the raw readline answer is lowercased and
trimmed; a or approve approves, m or modify modifies, c or cancel
cancels, and anything else defaults to approve. -/
def promptPlanAction (answer : String) : String :=
  let choice := jsTrim (jsToLower answer)
  if choice = "a" || choice = "approve" then "approve"
  else if choice = "m" || choice = "modify" then "modify"
  else if choice = "c" || choice = "cancel" then "cancel"
  else "approve"

/-- Model of confirmMicroPlan: the plan is approved when the trimmed
answer is empty (a falsy string in the source), or when the lowercased,
trimmed answer starts with the letter y. -/
def confirmMicroPlan (answer : String) : Bool :=
  jsTrim answer == "" || jsStartsWith (jsTrim (jsToLower answer)) "y"

/-! ## Concrete instances used by witnesses and counterexamples -/

/-- A workflow whose sole step loops back to itself on event e: the run
can only stop at the step ceiling. -/
def cfgLoop : WConfig := ⟨"a", [("a", ⟨"f", [("e", "a")], 30, "timeout"⟩)]⟩

/-- Step-function environment whose generator always yields event e. -/
def envLoop : Nat → StepEnv := fun _ => ⟨false, ["e"]⟩

/-- A workflow whose sole step only knows the transition x to done,
while its generator yields event e: the first iteration meets an
unknown transition. -/
def cfgUnknown : WConfig := ⟨"a", [("a", ⟨"f", [("x", "done")], 30, "timeout"⟩)]⟩

/-! ## Lemmas about the workflow engine loop -/

/-- The loop performs at most fuel further iterations, so the trace
grows by at most fuel entries. -/
lemma runAux_length_le (cfg : WConfig) (registered : List String) (env : Nat → StepEnv) :
    ∀ (fuel : Nat) (current : String) (count : Nat) (acc : List String),
      (runAux cfg registered env current count acc fuel).1.length ≤ acc.length + fuel := by
  intro fuel
  induction fuel with
  | zero =>
    intro current count acc
    simp only [runAux]
    split <;> simp
  | succ fuel ih =>
    intro current count acc
    rw [runAux]
    split
    · simp
    · cases hE : executeStep cfg registered (env count) current with
      | error msg => simp
      | ok ev =>
        simp only
        cases hL : lookupA cfg.steps_config current with
        | none => simp
        | some sc =>
          simp only
          cases hT : lookupA sc.transitions ev with
          | some next =>
            simp only
            calc (runAux cfg registered env next (count + 1) (current :: acc) fuel).1.length
                ≤ (current :: acc).length + fuel := ih next (count + 1) (current :: acc)
              _ = acc.length + (fuel + 1) := by simp only [List.length_cons]; omega
          | none => simp only [List.length_cons]; omega

/-- When the loop stops because the fuel ran out, exactly fuel further
steps were executed. -/
lemma runAux_budget_length (cfg : WConfig) (registered : List String) (env : Nat → StepEnv) :
    ∀ (fuel : Nat) (current : String) (count : Nat) (acc tr : List String),
      runAux cfg registered env current count acc fuel = (tr, .budgetStop) →
      tr.length = acc.length + fuel := by
  intro fuel
  induction fuel with
  | zero =>
    intro current count acc tr h
    simp only [runAux] at h
    split at h
    · simp at h
    · simp at h
      simp [← h]
  | succ fuel ih =>
    intro current count acc tr h
    rw [runAux] at h
    split at h
    · simp at h
    · cases hE : executeStep cfg registered (env count) current with
      | error msg => rw [hE] at h; simp at h
      | ok ev =>
        rw [hE] at h
        simp only at h
        cases hL : lookupA cfg.steps_config current with
        | none => rw [hL] at h; simp at h
        | some sc =>
          rw [hL] at h
          simp only at h
          cases hT : lookupA sc.transitions ev with
          | some next =>
            rw [hT] at h
            have := ih next (count + 1) (current :: acc) tr h
            simp at this
            omega
          | none => rw [hT] at h; simp at h

/-- When the loop stops on an unknown transition, the offending step is
configured, the observed event is absent from its transitions map, and
the offending step is the most recent trace entry. -/
lemma runAux_unknown (cfg : WConfig) (registered : List String) (env : Nat → StepEnv) :
    ∀ (fuel : Nat) (current : String) (count : Nat) (acc tr : List String) (s e : String),
      runAux cfg registered env current count acc fuel = (tr, .unknownTransition s e) →
      (∃ sc, lookupA cfg.steps_config s = some sc ∧ lookupA sc.transitions e = none) ∧
        tr.head? = some s := by
  intro fuel
  induction fuel with
  | zero =>
    intro current count acc tr s e h
    simp only [runAux] at h
    split at h <;> simp at h
  | succ fuel ih =>
    intro current count acc tr s e h
    rw [runAux] at h
    split at h
    · simp at h
    · cases hE : executeStep cfg registered (env count) current with
      | error msg => rw [hE] at h; simp at h
      | ok ev =>
        rw [hE] at h
        simp only at h
        cases hL : lookupA cfg.steps_config current with
        | none => rw [hL] at h; simp at h
        | some sc =>
          rw [hL] at h
          simp only at h
          cases hT : lookupA sc.transitions ev with
          | some next =>
            rw [hT] at h
            exact ih next (count + 1) (current :: acc) tr s e h
          | none =>
            rw [hT] at h
            simp at h
            obtain ⟨htr, hs, he⟩ := h
            subst hs; subst he
            refine ⟨⟨sc, hL, hT⟩, ?_⟩
            simp [← htr]

/-! ## Claim theorems for the workflow engine -/

/-- Claim C9: the engine consumes exactly one value from each step
generator — the event it produces depends only on the first yielded
value, so everything a step function would do after its first yield is
invisible to the engine — and a generator that finishes without
yielding a truthy value produces the transition event unknown. -/
theorem engine_consumes_single_yield :
    (∀ (y : String) (rest rest' : List String),
      executeGenerator (y :: rest) = executeGenerator (y :: rest')) ∧
    executeGenerator [] = "unknown" ∧
    (∀ rest : List String, executeGenerator ("" :: rest) = "unknown") :=
  ⟨fun _ _ _ => rfl, rfl, fun _ => by simp [executeGenerator]⟩

/-- Claim C3 (amended): WorkflowEngine.run executes at most
maxSteps = 1200 steps for every configuration, registration and
environment; but when the ceiling stops the loop, the run merely prints
the maximum-step warning and then still logs workflow completion and
resolves normally — no BudgetExceeded condition distinct from normal
completion is signalled. -/
theorem run_step_ceiling (cfg : WConfig) (registered : List String) (env : Nat → StepEnv) :
    (run cfg registered env).trace.length ≤ 1200 ∧
    ((run cfg registered env).exit = RunExit.budgetStop →
      (run cfg registered env).budgetWarned = true ∧
      (run cfg registered env).completedLogged = true) := by
  have hlen := runAux_length_le cfg registered env 1200 cfg.start_step 0 []
  cases h : runAux cfg registered env cfg.start_step 0 [] 1200 with
  | mk tr ex =>
    rw [h] at hlen
    simp at hlen
    cases ex with
    | reachedDone => simp [run, h, hlen]
    | unknownTransition s e => simp [run, h, hlen]
    | budgetStop =>
      have hb := runAux_budget_length cfg registered env 1200 cfg.start_step 0 [] tr h
      simp at hb
      simp [run, h, hlen, hb]
    | configError m => simp [run, h, hlen]

set_option maxRecDepth 100000 in
/-- Claim C3 (counterexample to the claim as stated): on a
self-looping workflow the run hits the 1200-step ceiling, and yet it
reports normal completion (the workflow-completed message is logged and
run resolves without error) instead of surfacing a BudgetExceeded
condition. -/
theorem run_step_ceiling_counterexample :
    (run cfgLoop ["f"] envLoop).exit = RunExit.budgetStop ∧
    (run cfgLoop ["f"] envLoop).trace.length = 1200 ∧
    (run cfgLoop ["f"] envLoop).completedLogged = true := by decide

set_option maxRecDepth 100000 in
/-- Claim C3 (witness): the amended theorem applied to the self-looping
workflow, whose run provably stops at the budget. -/
theorem run_step_ceiling_witness :
    (run cfgLoop ["f"] envLoop).budgetWarned = true ∧
    (run cfgLoop ["f"] envLoop).completedLogged = true :=
  (run_step_ceiling cfgLoop ["f"] envLoop).2 (by decide)

/-- Claim C8 (amended): when a step's event has no entry in its
transitions map, the run stops executing steps at that point — the
offending step is the last trace entry and the event is genuinely
absent from its configured transitions — and a diagnostic is printed;
however run still returns normally, logging the workflow-completed
message, rather than failing with a configuration error. -/
theorem unknown_transition_halts (cfg : WConfig) (registered : List String)
    (env : Nat → StepEnv) (s e : String) :
    (run cfg registered env).exit = RunExit.unknownTransition s e →
    (∃ sc, lookupA cfg.steps_config s = some sc ∧ lookupA sc.transitions e = none) ∧
    (run cfg registered env).trace.getLast? = some s ∧
    (run cfg registered env).completedLogged = true := by
  intro hex
  cases h : runAux cfg registered env cfg.start_step 0 [] 1200 with
  | mk tr ex =>
    cases ex with
    | reachedDone => rw [run] at hex; rw [h] at hex; simp at hex
    | budgetStop => rw [run] at hex; rw [h] at hex; simp at hex
    | configError m => rw [run] at hex; rw [h] at hex; simp at hex
    | unknownTransition s' e' =>
      rw [run] at hex
      rw [h] at hex
      simp at hex
      obtain ⟨hs, he⟩ := hex
      rw [show s' = s from hs, show e' = e from he] at h
      have hu := runAux_unknown cfg registered env 1200 cfg.start_step 0 [] tr s e h
      refine ⟨hu.1, ?_, ?_⟩
      · rw [run, h]
        simp [List.getLast?_reverse, hu.2]
      · rw [run, h]

/-- Claim C8 (counterexample to the claim as stated): a one-step
workflow whose generator yields an event missing from the transitions
map halts on the unknown transition, yet run proceeds to log the
workflow-completed message and resolve normally, i.e. it does proceed
as if the run completed normally. -/
theorem unknown_transition_counterexample :
    (run cfgUnknown ["f"] envLoop).exit = RunExit.unknownTransition "a" "e" ∧
    (run cfgUnknown ["f"] envLoop).completedLogged = true := by decide

/-- Claim C8 (witness): the amended theorem applied to the concrete
unknown-transition workflow. -/
theorem unknown_transition_witness :
    (run cfgUnknown ["f"] envLoop).trace.getLast? = some "a" ∧
    (run cfgUnknown ["f"] envLoop).completedLogged = true :=
  ⟨(unknown_transition_halts cfgUnknown ["f"] envLoop "a" "e" (by decide)).2.1,
    (unknown_transition_halts cfgUnknown ["f"] envLoop "a" "e" (by decide)).2.2⟩

/-! ## Lemmas about the fallback loop of the step executor -/

/-- The fallback loop never consults a test criterion. -/
lemma tryFallbacks_criteria (page : PageEnv) (err : String) :
    ∀ (fbs : List String) (acc : List (String × Nat)),
      (tryFallbacks page err fbs acc).2.criteriaChecked = false := by
  intro fbs
  induction fbs with
  | nil => intro acc; simp [tryFallbacks]
  | cons fb rest ih =>
    intro acc
    rw [tryFallbacks]
    split
    · simp
    · exact ih (acc ++ [(fb, 5000)])

/-- The fallback loop reports success exactly when it performed a
click. -/
lemma tryFallbacks_success_iff (page : PageEnv) (err : String) :
    ∀ (fbs : List String) (acc : List (String × Nat)),
      ((tryFallbacks page err fbs acc).1.success = true ↔
        (tryFallbacks page err fbs acc).2.actions ≠ []) := by
  intro fbs
  induction fbs with
  | nil => intro acc; simp [tryFallbacks]
  | cons fb rest ih =>
    intro acc
    rw [tryFallbacks]
    split
    · simp
    · exact ih (acc ++ [(fb, 5000)])

/-- The fallback loop attempts an in-order slice of the fallback list,
each entry at the 5000 ms deadline, and it attempts the whole list
whenever it fails. -/
lemma tryFallbacks_attempts (page : PageEnv) (err : String) :
    ∀ (fbs : List String) (acc : List (String × Nat)),
      ∃ m, m ≤ fbs.length ∧
        (tryFallbacks page err fbs acc).2.attempts
          = acc ++ (fbs.take m).map (fun s => (s, 5000)) ∧
        ((tryFallbacks page err fbs acc).1.success = false → m = fbs.length) := by
  intro fbs
  induction fbs with
  | nil => intro acc; exact ⟨0, by simp [tryFallbacks]⟩
  | cons fb rest ih =>
    intro acc
    rw [tryFallbacks]
    split
    · exact ⟨1, by simp⟩
    · obtain ⟨m, hm, hatt, hfail⟩ := ih (acc ++ [(fb, 5000)])
      refine ⟨m + 1, by simpa using hm, ?_, fun h => by simpa using hfail h⟩
      rw [hatt]
      simp

/-- A fallback loop over selectors the page never finds fails. -/
lemma tryFallbacks_allmiss (page : PageEnv) (err : String) :
    ∀ (fbs : List String) (acc : List (String × Nat)),
      (∀ fb ∈ fbs, page.found fb 5000 = false) →
      (tryFallbacks page err fbs acc).1.success = false := by
  intro fbs
  induction fbs with
  | nil => intro acc _; simp [tryFallbacks]
  | cons fb rest ih =>
    intro acc h
    have hfb : page.found fb 5000 = false := h fb (by simp)
    rw [tryFallbacks]
    split
    · rename_i hcond
      rw [hfb] at hcond
      simp at hcond
    · exact ih (acc ++ [(fb, 5000)]) (fun x hx => h x (by simp [hx]))

/-! ## Claim theorems for the step executor -/

/-- A page environment that finds every selector as a button element and
on which every action completes. -/
def pageHit : PageEnv := ⟨fun _ _ => true, fun _ => "button", fun _ => false⟩

/-- A page environment on which no selector is ever found. -/
def pageMiss : PageEnv := ⟨fun _ _ => false, fun _ => "div", fun _ => false⟩

/-- Claim C1 (amended): executeGeneratedStep returns success = true
exactly when a concrete action (click, fill, press-Enter or select) was
performed on a resolved element, and an execution in which no action
completed returns success = false; however, the step's declared
test_criteria is never evaluated against the post-action page state —
no execution path checks any criterion. -/
theorem step_success_iff_action (primarySel : Option String) (fallbacks : List String)
    (fn : String) (page : PageEnv) :
    ((executeGeneratedStep primarySel fallbacks fn page).1.success = true ↔
      (executeGeneratedStep primarySel fallbacks fn page).2.actions ≠ []) ∧
    (executeGeneratedStep primarySel fallbacks fn page).2.criteriaChecked = false := by
  cases primarySel with
  | none => simp [executeGeneratedStep]
  | some sel =>
    rw [executeGeneratedStep]
    split
    · cases hA : determineAction fn (page.tagOf sel) with
      | none => simp
      | some act =>
        simp only
        split
        · exact ⟨tryFallbacks_success_iff page _ _ _, tryFallbacks_criteria page _ _ _⟩
        · simp
    · exact ⟨tryFallbacks_success_iff page _ _ _, tryFallbacks_criteria page _ _ _⟩

/-- Claim C1 (counterexample to the claim as stated): a step whose
primary selector resolves to a button is clicked and reported
successful even though no test criterion was evaluated, contradicting
the claim that success = true entails that the declared test criterion
was checked against the post-action page state. -/
theorem step_success_without_criterion_check :
    (executeGeneratedStep (some "#apply") [] "generated_step" pageHit).1.success = true ∧
    (executeGeneratedStep (some "#apply") [] "generated_step" pageHit).2.actions
      = [(ActionKind.click, "#apply")] ∧
    (executeGeneratedStep (some "#apply") [] "generated_step" pageHit).2.criteriaChecked
      = false := by decide

/-- Claim C7 (amended): resolution attempts the primary descriptor
first, with the full 10000 ms deadline; fallbacks are attempted only
after the primary attempt fails, in the order listed and each with the
shorter 5000 ms deadline, but only the first two fallbacks are ever
tried; if the primary matches and its action completes, zero fallbacks
are attempted; at most fallbacks.length + 1 descriptors are attempted
in total; and when the primary and every fallback miss, the result is a
failure, never a silent success. -/
theorem selector_resolution_order (p : String) (fallbacks : List String)
    (fn : String) (page : PageEnv) :
    ((executeGeneratedStep (some p) fallbacks fn page).2.attempts.head? = some (p, 10000)) ∧
    (∃ m, m ≤ 2 ∧ m ≤ fallbacks.length ∧
      (executeGeneratedStep (some p) fallbacks fn page).2.attempts
        = (p, 10000) :: (fallbacks.take m).map (fun s => (s, 5000))) ∧
    ((executeGeneratedStep (some p) fallbacks fn page).2.attempts.length
      ≤ fallbacks.length + 1) ∧
    (page.found p 10000 = true → page.actionFails p = false →
      (executeGeneratedStep (some p) fallbacks fn page).2.attempts = [(p, 10000)]) ∧
    (page.found p 10000 = false → (∀ fb ∈ fallbacks, page.found fb 5000 = false) →
      (executeGeneratedStep (some p) fallbacks fn page).1.success = false) := by
  have hshape : ∃ m, m ≤ 2 ∧ m ≤ fallbacks.length ∧
      (executeGeneratedStep (some p) fallbacks fn page).2.attempts
        = (p, 10000) :: (fallbacks.take m).map (fun s => (s, 5000)) := by
    rw [executeGeneratedStep]
    split
    · cases hA : determineAction fn (page.tagOf p) with
      | none => exact ⟨0, by simp⟩
      | some act =>
        simp only
        split
        · obtain ⟨m, hm, hatt, -⟩ :=
            tryFallbacks_attempts page "action raised during execution"
              (fallbacks.take 2) [(p, 10000)]
          have hmin : m ≤ min 2 fallbacks.length := by simpa using hm
          have h2 : m ≤ 2 := le_trans hmin (Nat.min_le_left _ _)
          refine ⟨m, h2, le_trans hmin (Nat.min_le_right _ _), ?_⟩
          rw [hatt, List.take_take, Nat.min_eq_left h2]
          rfl
        · exact ⟨0, by simp⟩
    · obtain ⟨m, hm, hatt, -⟩ :=
        tryFallbacks_attempts page "selector timeout" (fallbacks.take 2) [(p, 10000)]
      have hmin : m ≤ min 2 fallbacks.length := by simpa using hm
      have h2 : m ≤ 2 := le_trans hmin (Nat.min_le_left _ _)
      refine ⟨m, h2, le_trans hmin (Nat.min_le_right _ _), ?_⟩
      rw [hatt, List.take_take, Nat.min_eq_left h2]
      rfl
  refine ⟨?_, hshape, ?_, ?_, ?_⟩
  · obtain ⟨m, -, -, hatt⟩ := hshape
    rw [hatt]
    rfl
  · obtain ⟨m, -, hml, hatt⟩ := hshape
    rw [hatt]
    simp only [List.length_cons, List.length_map, List.length_take]
    omega
  · intro hfound hact
    rw [executeGeneratedStep]
    split
    · cases hA : determineAction fn (page.tagOf p) with
      | none => simp
      | some act => simp [hact]
    · rename_i hcond
      rw [hfound] at hcond
      simp at hcond
  · intro hmiss hfbs
    rw [executeGeneratedStep]
    split
    · rename_i hcond
      rw [hmiss] at hcond
      simp at hcond
    · exact tryFallbacks_allmiss page _ (fallbacks.take 2) [(p, 10000)]
        (fun fb hfb => hfbs fb (List.take_subset 2 fallbacks hfb))

/-- Claim C7 (counterexample to the claim as stated): with three
fallbacks and a page on which every descriptor misses, only the first
two fallbacks are attempted — the third is never tried — so resolution
does not attempt each listed fallback before giving up, contrary to the
claim. -/
theorem selector_resolution_counterexample :
    pageMiss.found "#a" 10000 = false ∧
    (["f1", "f2", "f3"].all (fun fb => !pageMiss.found fb 5000)) = true ∧
    (executeGeneratedStep (some "#a") ["f1", "f2", "f3"] "click_button" pageMiss).2.attempts
      = [("#a", 10000), ("f1", 5000), ("f2", 5000)] ∧
    ¬ (("f3", 5000) ∈
      (executeGeneratedStep (some "#a") ["f1", "f2", "f3"] "click_button" pageMiss).2.attempts) ∧
    (executeGeneratedStep (some "#a") ["f1", "f2", "f3"] "click_button" pageMiss).1.success
      = false := by decide

/-- Claim C7 (witness): the amended theorem applied at a page that
resolves the primary (only the primary is attempted) and at a page
where everything misses (the result is a failure). -/
theorem selector_resolution_witness :
    (executeGeneratedStep (some "#go") ["fb1"] "do_step" pageHit).2.attempts
      = [("#go", 10000)] ∧
    (executeGeneratedStep (some "#go") ["fb1", "fb2", "fb3"] "do_step" pageMiss).1.success
      = false :=
  ⟨(selector_resolution_order "#go" ["fb1"] "do_step" pageHit).2.2.2.1 rfl rfl,
    (selector_resolution_order "#go" ["fb1", "fb2", "fb3"] "do_step" pageMiss).2.2.2.2
      rfl (by intro fb _; rfl)⟩

/-! ## Lemmas about commit-on-success and the micro-plan loop -/

/-- Everything commitPlan adds beyond the incoming history carries a
successful execution result. -/
lemma commitPlan_mem :
    ∀ (ps : List MicroPlanStep) (rs : List ExecResult) (ctx : List GStep) (s : GStep),
      s ∈ commitPlan ctx ps rs → s ∈ ctx ∨ s.execution_result.success = true := by
  intro ps
  induction ps with
  | nil => intro rs ctx s h; rw [commitPlan] at h; exact Or.inl h
  | cons p ps ih =>
    intro rs ctx s h
    cases rs with
    | nil =>
      rw [show commitPlan ctx (p :: ps) [] = ctx from rfl] at h
      exact Or.inl h
    | cons r rs =>
      rw [commitPlan] at h
      split at h
      · rcases ih rs (ctx ++ [⟨p.action, r⟩]) s h with hin | hsucc
        · rcases List.mem_append.mp hin with hl | hr
          · exact Or.inl hl
          · right
            simp at hr
            rename_i hsuc
            rw [hr]
            exact hsuc
        · exact Or.inr hsucc
      · exact Or.inl h

/-- commitPlan only appends: the incoming history is an unchanged
initial segment of the outgoing one. -/
lemma commitPlan_append :
    ∀ (ps : List MicroPlanStep) (rs : List ExecResult) (ctx : List GStep),
      ∃ l, commitPlan ctx ps rs = ctx ++ l := by
  intro ps
  induction ps with
  | nil => intro rs ctx; exact ⟨[], by rw [commitPlan]; simp⟩
  | cons p ps ih =>
    intro rs ctx
    cases rs with
    | nil => exact ⟨[], by rw [show commitPlan ctx (p :: ps) [] = ctx from rfl]; simp⟩
    | cons r rs =>
      rw [commitPlan]
      split
      · obtain ⟨l, hl⟩ := ih rs (ctx ++ [⟨p.action, r⟩])
        exact ⟨⟨p.action, r⟩ :: l, by rw [hl]; simp⟩
      · exact ⟨[], by simp⟩

/-- Everything the micro-plan loop adds to the committed history beyond
what it started from has a successful execution result. -/
lemma phaseLoop_mem (env : Nat → IterEnv) :
    ∀ (fuel idx : Nat) (ctx : List GStep) (calls : Nat) (s : GStep),
      s ∈ (phaseLoop env fuel idx ctx calls).committed →
      s ∈ ctx ∨ s.execution_result.success = true := by
  intro fuel
  induction fuel with
  | zero => intro idx ctx calls s h; rw [phaseLoop] at h; exact Or.inl h
  | succ fuel ih =>
    intro idx ctx calls s h
    rw [phaseLoop] at h
    split at h
    · exact Or.inl h
    · split at h
      · exact Or.inl h
      · split at h
        · exact Or.inl h
        · rcases ih (idx + 1) _ (calls + 1) s h with hin | hsucc
          · exact commitPlan_mem _ _ _ s hin
          · exact Or.inr hsucc

/-- The micro-plan loop only appends to the committed history. -/
lemma phaseLoop_append (env : Nat → IterEnv) :
    ∀ (fuel idx : Nat) (ctx : List GStep) (calls : Nat),
      ∃ l, (phaseLoop env fuel idx ctx calls).committed = ctx ++ l := by
  intro fuel
  induction fuel with
  | zero => intro idx ctx calls; exact ⟨[], by rw [phaseLoop]; simp⟩
  | succ fuel ih =>
    intro idx ctx calls
    rw [phaseLoop]
    split
    · exact ⟨[], by simp⟩
    · split
      · exact ⟨[], by simp⟩
      · split
        · exact ⟨[], by simp⟩
        · obtain ⟨l1, h1⟩ := commitPlan_append (createMicroPlan (env idx).planParse).steps
            (env idx).stepResults ctx
          obtain ⟨l2, h2⟩ := ih (idx + 1)
            (commitPlan ctx (createMicroPlan (env idx).planParse).steps (env idx).stepResults)
            (calls + 1)
          exact ⟨l1 ++ l2, by rw [h2, h1]; simp⟩

/-- The planner-call counter of the micro-plan loop never decreases and
grows by at most one per remaining iteration. -/
lemma phaseLoop_calls (env : Nat → IterEnv) :
    ∀ (fuel idx : Nat) (ctx : List GStep) (calls : Nat),
      calls ≤ (phaseLoop env fuel idx ctx calls).plannerCalls ∧
      (phaseLoop env fuel idx ctx calls).plannerCalls ≤ calls + fuel := by
  intro fuel
  induction fuel with
  | zero => intro idx ctx calls; rw [phaseLoop]; exact ⟨le_refl _, Nat.le_add_right _ _⟩
  | succ fuel ih =>
    intro idx ctx calls
    rw [phaseLoop]
    split
    · exact ⟨le_refl _, Nat.le_add_right _ _⟩
    · split
      · exact ⟨le_refl _, Nat.le_add_right _ _⟩
      · split
        · exact ⟨Nat.le_succ _,
            Nat.add_le_add_left (Nat.succ_le_succ (Nat.zero_le _)) _⟩
        · have h1 := (ih (idx + 1)
            (commitPlan ctx (createMicroPlan (env idx).planParse).steps (env idx).stepResults)
            (calls + 1)).1
          have h2 := (ih (idx + 1)
            (commitPlan ctx (createMicroPlan (env idx).planParse).steps (env idx).stepResults)
            (calls + 1)).2
          exact ⟨le_trans (Nat.le_succ _) h1, by omega⟩

/-! ## Concrete environments for the plan-loop claims -/

/-- An iteration environment whose goal oracle immediately reports the
intent fulfilled. -/
def envGoal : Nat → IterEnv := fun _ => ⟨true, 10, true, none, true, []⟩

/-- An iteration environment in which the planner response never parses
(so the one-step fallback plan is used), the user approves, and the
single generated step executes successfully. -/
def envFallbackPlan : Nat → IterEnv := fun _ =>
  ⟨false, 10, true, none, true, [⟨true, none, some "success_event"⟩]⟩

/-- A three-step micro-plan as the planner would return it. -/
def plan3 : MicroPlan :=
  ⟨[⟨1, "Find search input", some "input", "Input visible"⟩,
    ⟨2, "Enter keywords", some "input", "Input has value"⟩,
    ⟨3, "Press Enter", none, "Results visible"⟩], "30 seconds"⟩

/-- An iteration environment in which the goal is never fulfilled, every
plan is the same approved three-step plan, and every step succeeds: the
run can only stop at the plan budget. -/
def envNeverDone : Nat → IterEnv := fun _ =>
  ⟨false, 10, true, some plan3, true,
    [⟨true, none, some "success_event"⟩, ⟨true, none, some "success_event"⟩,
      ⟨true, none, some "success_event"⟩]⟩

/-- An iteration environment whose second plan step fails, exercising
the abandon-rest-of-plan path. -/
def envMixed : Nat → IterEnv := fun _ =>
  ⟨false, 10, true, some plan3, true,
    [⟨true, none, some "success_event"⟩, ⟨false, some "timeout", none⟩,
      ⟨true, none, some "success_event"⟩]⟩

/-! ## Claim theorems for the plan loop controller -/

/-- Claim C5: once the goal-fulfillment oracle answers true at the head
of a loop iteration, the workflow phase terminates at once with the
goal-achieved exit, the committed history unchanged and the
planner-call counter unchanged — no further createMicroPlan request is
issued in that run. -/
theorem goal_stops_planning (env : Nat → IterEnv) (fuel idx : Nat)
    (ctx : List GStep) (calls : Nat) :
    (env idx).fulfilled = true →
    phaseLoop env (fuel + 1) idx ctx calls = ⟨ctx, calls, .goalAchieved⟩ := by
  intro h
  rw [phaseLoop]
  simp [h]

/-- Claim C5 (witness): with an oracle that reports fulfilment on the
first iteration, the phase ends with zero planner calls. -/
theorem goal_stops_planning_witness :
    phaseLoop envGoal 20 0 [discoveryStep] 0 = ⟨[discoveryStep], 0, .goalAchieved⟩ :=
  goal_stops_planning envGoal 19 0 [discoveryStep] 0 rfl

/-- Claim C4: commit-on-success-only. Starting the micro-plan loop from
a committed history whose entries all have successful execution
results, every entry of the committed history at any reachable point
(any fuel, index, and counter) still has a successful execution result;
in particular the full generateBot history — discovery step, workflow
commits, and the duplicate push of the returned workflow steps — never
contains a step whose ExecutionResult.success is false. -/
theorem commit_on_success_only :
    (∀ (env : Nat → IterEnv) (fuel idx : Nat) (ctx : List GStep) (calls : Nat),
      (∀ s ∈ ctx, s.execution_result.success = true) →
      ∀ s ∈ (phaseLoop env fuel idx ctx calls).committed,
        s.execution_result.success = true) ∧
    (∀ env : Nat → IterEnv, ∀ s ∈ (generateBot env).history,
      s.execution_result.success = true) := by
  have hphase : ∀ (env : Nat → IterEnv) (fuel idx : Nat) (ctx : List GStep) (calls : Nat),
      (∀ s ∈ ctx, s.execution_result.success = true) →
      ∀ s ∈ (phaseLoop env fuel idx ctx calls).committed,
        s.execution_result.success = true := by
    intro env fuel idx ctx calls hctx s hs
    rcases phaseLoop_mem env fuel idx ctx calls s hs with hin | hsucc
    · exact hctx s hin
    · exact hsucc
  refine ⟨hphase, ?_⟩
  intro env s hs
  have hs' : s ∈ (phaseLoop env 20 0 [discoveryStep] 0).committed
      ++ (phaseLoop env 20 0 [discoveryStep] 0).committed.drop 1 := hs
  rcases List.mem_append.mp hs' with hl | hr
  · exact hphase env 20 0 [discoveryStep] 0 (by simp [discoveryStep]) s hl
  · exact hphase env 20 0 [discoveryStep] 0 (by simp [discoveryStep]) s
      (List.drop_subset _ _ hr)

/-- Claim C4 (witness): on a run whose plans mix successful and failed
step executions, every committed step still records success. -/
theorem commit_on_success_only_witness :
    ((phaseLoop envMixed 20 0 [] 0).committed.all
      (fun s => s.execution_result.success)) = true := by
  rw [List.all_eq_true]
  intro s hs
  have h := commit_on_success_only.1 envMixed 20 0 [] 0 (by simp) s hs
  simp [h]

/-- Claim C2 (amended): no plan-size validation exists between planning
and execution. The parse-failure fallback of createMicroPlan is a
one-step plan, and an iteration of the workflow phase whose gate
approves proceeds to execute (and commit from) the plan's steps
whatever their number: the loop equation under approval carries no
condition on the plan size. -/
theorem microplan_size_not_validated :
    (fallbackMicroPlan.steps.length = 1 ∧ createMicroPlan none = fallbackMicroPlan) ∧
    (∀ (env : Nat → IterEnv) (fuel idx : Nat) (ctx : List GStep) (calls : Nat),
      (env idx).fulfilled = false →
      ((env idx).totalElements < 5 → (env idx).aiCanProceed = true) →
      (env idx).approved = true →
      phaseLoop env (fuel + 1) idx ctx calls =
        phaseLoop env fuel (idx + 1)
          (commitPlan ctx (createMicroPlan (env idx).planParse).steps (env idx).stepResults)
          (calls + 1)) := by
  refine ⟨⟨rfl, rfl⟩, ?_⟩
  intro env fuel idx ctx calls hful hai happ
  rw [phaseLoop]
  have hcond : ((env idx).totalElements < 5 && !(env idx).aiCanProceed) = false := by
    by_cases hlt : (env idx).totalElements < 5
    · simp [hai hlt]
    · simp [hlt]
  simp [hful, hcond, happ]

/-- Claim C2 (counterexample to the claim as stated): when the planner
response fails to parse, createMicroPlan hands back its one-step
fallback plan — a MicroPlan with fewer than 3 steps — and the workflow
phase, far from rejecting it before execution, executes and commits its
step once the gate approves. -/
theorem microplan_size_counterexample :
    (createMicroPlan ((envFallbackPlan 0).planParse)).steps.length = 1 ∧
    (createMicroPlan ((envFallbackPlan 0).planParse)).steps.length < 3 ∧
    (phaseLoop envFallbackPlan 1 0 [] 0).committed
      = [⟨"Analyze current page", ⟨true, none, some "success_event"⟩⟩] ∧
    (phaseLoop envFallbackPlan 1 0 [] 0).plannerCalls = 1 := by decide

/-- Claim C2 (witness): the amended loop equation applied to the
fallback-plan environment. -/
theorem microplan_size_witness :
    phaseLoop envFallbackPlan 1 0 [] 0 =
      phaseLoop envFallbackPlan 0 1
        (commitPlan [] (createMicroPlan ((envFallbackPlan 0).planParse)).steps
          ((envFallbackPlan 0).stepResults)) 1 :=
  microplan_size_not_validated.2 envFallbackPlan 0 0 [] 0 rfl (fun _ => rfl) rfl

/-- Claim C6 (amended): the workflow phase enforces a single budget
counter — micro-plans issued, monotonically increasing and bounded by
maxMicroPlans = 20 — while the committed history only ever grows; no
independent committed-step ceiling exists, and exhausting the plan
budget does not abort the run: generateBot always proceeds to compile
and marks the bot status completed. -/
theorem budget_single_counter :
    (∀ (env : Nat → IterEnv) (fuel idx : Nat) (ctx : List GStep) (calls : Nat),
      calls ≤ (phaseLoop env fuel idx ctx calls).plannerCalls ∧
      (phaseLoop env fuel idx ctx calls).plannerCalls ≤ calls + fuel ∧
      ∃ l, (phaseLoop env fuel idx ctx calls).committed = ctx ++ l) ∧
    (∀ env : Nat → IterEnv,
      (generateBot env).plannerCalls ≤ 20 ∧ (generateBot env).status = "completed") := by
  constructor
  · intro env fuel idx ctx calls
    refine ⟨(phaseLoop_calls env fuel idx ctx calls).1,
      (phaseLoop_calls env fuel idx ctx calls).2, phaseLoop_append env fuel idx ctx calls⟩
  · intro env
    constructor
    · have h := (phaseLoop_calls env 20 0 [discoveryStep] 0).2
      show (phaseLoop env 20 0 [discoveryStep] 0).plannerCalls ≤ 20
      omega
    · rfl

/-- Claim C6 (counterexample to the claim as stated): with a goal that
is never fulfilled and every three-step plan approved and successful,
the run issues all 20 micro-plans and exhausts the plan budget — yet it
terminates with the bot marked completed, not with an Aborted status
and a BudgetExceeded reason; and the 61 committed steps were never
checked against any step ceiling. -/
theorem budget_counterexample :
    (generateBot envNeverDone).plannerCalls = 20 ∧
    (generateBot envNeverDone).phaseExit = PhaseExit.budgetExhausted ∧
    (generateBot envNeverDone).status = "completed" ∧
    (generateBot envNeverDone).status ≠ "Aborted" ∧
    (generateBot envNeverDone).history.length = 121 := by decide

/-! ## Claim theorems for the human approval gates -/

/-- Claim C10 (amended): both gates default toward approval, but with
the source's normalisation. The generic-plan gate approves any answer
whose lowercased, trimmed form is none of a, approve, m, modify, c,
cancel; the micro-plan gate approves an answer that trims to the empty
string (pressing ENTER, or whitespace only) and any answer whose
lowercased, trimmed form starts with y, and rejects every other
answer. -/
theorem approval_gate_defaults :
    (∀ answer : String,
      jsTrim (jsToLower answer) ≠ "a" → jsTrim (jsToLower answer) ≠ "approve" →
      jsTrim (jsToLower answer) ≠ "m" → jsTrim (jsToLower answer) ≠ "modify" →
      jsTrim (jsToLower answer) ≠ "c" → jsTrim (jsToLower answer) ≠ "cancel" →
      promptPlanAction answer = "approve") ∧
    (∀ answer : String, jsTrim answer = "" → confirmMicroPlan answer = true) ∧
    (∀ answer : String, jsStartsWith (jsTrim (jsToLower answer)) "y" = true →
      confirmMicroPlan answer = true) ∧
    (∀ answer : String, jsTrim answer ≠ "" →
      jsStartsWith (jsTrim (jsToLower answer)) "y" = false →
      confirmMicroPlan answer = false) := by
  refine ⟨?_, ?_, ?_, ?_⟩
  · intro answer h1 h2 h3 h4 h5 h6
    rw [promptPlanAction]
    simp [h1, h2, h3, h4, h5, h6]
  · intro answer h
    rw [confirmMicroPlan]
    simp [h]
  · intro answer h
    rw [confirmMicroPlan]
    simp [h]
  · intro answer h1 h2
    rw [confirmMicroPlan]
    simp [h1, h2]

/-- Claim C10 (counterexample to the claim as stated): a whitespace-only
answer to the micro-plan gate is a non-empty answer that does not start
with y, so under the claim it should reject the plan; the code approves
it, because only the trimmed answer is tested for emptiness. -/
theorem approval_gate_counterexample :
    confirmMicroPlan " " = true ∧
    (" " : String) ≠ "" ∧
    jsStartsWith " " "y" = false := by decide

/-- Claim C10 (witness): the amended gate behaviour at concrete
answers — an unrecognised answer approves the generic plan, ENTER and a
yes-like answer approve the micro-plan, and a no-like answer rejects
it. -/
theorem approval_gate_witness :
    promptPlanAction "x" = "approve" ∧
    confirmMicroPlan "" = true ∧
    confirmMicroPlan " YES " = true ∧
    confirmMicroPlan "no" = false :=
  ⟨approval_gate_defaults.1 "x" (by decide) (by decide) (by decide) (by decide)
      (by decide) (by decide),
    approval_gate_defaults.2.1 "" (by decide),
    approval_gate_defaults.2.2.1 " YES " (by decide),
    approval_gate_defaults.2.2.2 "no" (by decide) (by decide)⟩

end AiCodeAgent
